import Mathlib

/-!
Verification development for the TruthChain backend.

The definitions below are shallow embeddings of the TypeScript sources:
`HashService` (content normalization and SHA-256), `BlockchainService`
(multi-version contract fallback over an explicit RPC-outcome environment),
`VerificationController` (cache → store → chain resolver, quick and batch
variants over an explicit database state) and `BNSValidationService`
(staleness sweep over an explicit name-registry environment).  External I/O
(RPC calls, HTTP fetches, MongoDB) is modelled by explicit environment
functions describing each call's outcome, so the control flow of the
TypeScript is reproduced exactly while staying pure.
-/

namespace TruthChain

/-! ## HashService (src/services/HashService.ts)

`generateContentHash` cleans the content with
`content.trim().replace(/\s+/g, ' ')` and then SHA-256 hashes the UTF-8
bytes.  We model JS whitespace, JS `trim`, the `\s+ → ' '` replacement, and
a full SHA-256 over byte lists (bytes and words as `Nat` with explicit
`% 2^32`). -/

/-- The JavaScript `\s` / `trim` whitespace class. -/
def jsWhitespace (c : Char) : Bool :=
  c == ' ' || c == '\t' || c == '\n' || c == Char.ofNat 11 || c == Char.ofNat 12 ||
  c == '\r' || c == Char.ofNat 0xa0 || c == Char.ofNat 0x1680 ||
  (0x2000 ≤ c.toNat && c.toNat ≤ 0x200a) ||
  c == Char.ofNat 0x2028 || c == Char.ofNat 0x2029 || c == Char.ofNat 0x202f ||
  c == Char.ofNat 0x205f || c == Char.ofNat 0x3000 || c == Char.ofNat 0xfeff

/-- JS `String.prototype.trim`: drop whitespace from both ends. -/
def trimChars (l : List Char) : List Char :=
  ((l.dropWhile jsWhitespace).reverse.dropWhile jsWhitespace).reverse

/-- Scanner for `replace(/\s+/g, ' ')`: the flag records whether the scan
is inside a whitespace run whose single `' '` was already emitted. -/
def collapseWsAux : Bool → List Char → List Char
  | _, [] => []
  | inRun, c :: rest =>
    if jsWhitespace c then
      if inRun then collapseWsAux true rest
      else ' ' :: collapseWsAux true rest
    else c :: collapseWsAux false rest

/-- JS `replace(/\s+/g, ' ')`: each maximal whitespace run becomes one space. -/
def collapseWs (l : List Char) : List Char := collapseWsAux false l

/-- `const cleanContent = content.trim().replace(/\s+/g, ' ')`. -/
def cleanContent (s : String) : String :=
  String.mk (collapseWs (trimChars s.data))

/-- The list does not start with a whitespace character. -/
def noLeadWs (l : List Char) : Bool :=
  match l.head? with
  | none => true
  | some c => !jsWhitespace c

/-- Every whitespace character is a single `' '` not followed by further
whitespace (the shape `replace(/\s+/g, ' ')` produces). -/
def wsNormalized : List Char → Bool
  | [] => true
  | [c] => !jsWhitespace c || c == ' '
  | c :: c2 :: rest =>
    (!jsWhitespace c || (c == ' ' && !jsWhitespace c2)) && wsNormalized (c2 :: rest)

/-! ### SHA-256 over byte lists (words are `Nat` reduced mod `2^32`) -/

def w32 (n : Nat) : Nat := n % 4294967296

def add32 (a b : Nat) : Nat := (a + b) % 4294967296

def rotr32 (n x : Nat) : Nat := w32 ((x >>> n) ||| (x <<< (32 - n)))

def not32 (x : Nat) : Nat := x ^^^ 4294967295

def chFn (x y z : Nat) : Nat := (x &&& y) ^^^ (not32 x &&& z)

def majFn (x y z : Nat) : Nat := (x &&& y) ^^^ (x &&& z) ^^^ (y &&& z)

def bigSigma0 (x : Nat) : Nat := rotr32 2 x ^^^ rotr32 13 x ^^^ rotr32 22 x

def bigSigma1 (x : Nat) : Nat := rotr32 6 x ^^^ rotr32 11 x ^^^ rotr32 25 x

def smallSigma0 (x : Nat) : Nat := rotr32 7 x ^^^ rotr32 18 x ^^^ (x >>> 3)

def smallSigma1 (x : Nat) : Nat := rotr32 17 x ^^^ rotr32 19 x ^^^ (x >>> 10)

/-- The 64 SHA-256 round constants (fractional cube-root parts), in
decimal. -/
def sha256K : Array Nat := #[
  1116352408, 1899447441, 3049323471, 3921009573, 961987163,
  1508970993, 2453635748, 2870763221, 3624381080, 310598401,
  607225278, 1426881987, 1925078388, 2162078206, 2614888103,
  3248222580, 3835390401, 4022224774, 264347078, 604807628,
  770255983, 1249150122, 1555081692, 1996064986, 2554220882,
  2821834349, 2952996808, 3210313671, 3336571891, 3584528711,
  113926993, 338241895, 666307205, 773529912, 1294757372,
  1396182291, 1695183700, 1986661051, 2177026350, 2456956037,
  2730485921, 2820302411, 3259730800, 3345764771, 3516065817,
  3600352804, 4094571909, 275423344, 430227734, 506948616,
  659060556, 883997877, 958139571, 1322822218, 1537002063,
  1747873779, 1955562222, 2024104815, 2227730452, 2361852424,
  2428436474, 2756734187, 3204031479, 3329325298]

/-- The initial SHA-256 state (fractional square-root parts), in
decimal. -/
def sha256H0 : Array Nat := #[
  1779033703, 3144134277, 1013904242, 2773480762,
  1359893119, 2600822924, 528734635, 1541459225]

/-- Big-endian byte rendering of `v` on `n` bytes. -/
def beBytes (n v : Nat) : List Nat :=
  match n with
  | 0 => []
  | m + 1 => beBytes m (v / 256) ++ [v % 256]

/-- SHA-256 padding: `0x80`, zeros to 56 mod 64, 8-byte big-endian bit length. -/
def sha256pad (msg : List Nat) : List Nat :=
  msg ++ [0x80] ++ List.replicate ((119 - msg.length % 64) % 64) 0 ++
    beBytes 8 (msg.length * 8)

/-- Group bytes into big-endian 32-bit words. -/
def bytesToWords : List Nat → List Nat
  | b0 :: b1 :: b2 :: b3 :: rest =>
    (((b0 * 256 + b1) * 256 + b2) * 256 + b3) :: bytesToWords rest
  | _ => []

/-- Extend a 16-word block to the 64-word message schedule. -/
def extendW (w : Array Nat) : Array Nat :=
  (List.range 48).foldl (fun w i =>
    w.push (add32 (add32 (smallSigma1 w[i + 14]!) w[i + 9]!)
      (add32 (smallSigma0 w[i + 1]!) w[i]!))) w

/-- One SHA-256 compression round over the 8-word state. -/
def sha256round (k wi : Nat) (s : Nat × Nat × Nat × Nat × Nat × Nat × Nat × Nat) :
    Nat × Nat × Nat × Nat × Nat × Nat × Nat × Nat :=
  match s with
  | (a, b, c, d, e, f, g, h) =>
    let t1 := add32 h (add32 (bigSigma1 e) (add32 (chFn e f g) (add32 k wi)))
    let t2 := add32 (bigSigma0 a) (majFn a b c)
    (add32 t1 t2, a, b, c, add32 d t1, e, f, g)

/-- Compress one 64-byte block into the hash state. -/
def sha256compress (h : Array Nat) (block : Array Nat) : Array Nat :=
  let w := extendW block
  let s := (List.range 64).foldl
    (fun s i => sha256round sha256K[i]! w[i]! s)
    (h[0]!, h[1]!, h[2]!, h[3]!, h[4]!, h[5]!, h[6]!, h[7]!)
  match s with
  | (a, b, c, d, e, f, g, hh) =>
    #[add32 h[0]! a, add32 h[1]! b, add32 h[2]! c, add32 h[3]! d,
      add32 h[4]! e, add32 h[5]! f, add32 h[6]! g, add32 h[7]! hh]

/-- Fold the compression over all 64-byte blocks. -/
def sha256blocks (h : Array Nat) (bytes : List Nat) : Array Nat :=
  if bytes.isEmpty then h
  else sha256blocks (sha256compress h (bytesToWords (bytes.take 64)).toArray)
    (bytes.drop 64)
termination_by bytes.length
decreasing_by
  rename_i hne
  simp only [List.isEmpty_iff] at hne
  rw [List.length_drop]
  exact Nat.sub_lt (List.length_pos.mpr hne) (by decide)

/-- Render the 8-word state as 32 big-endian bytes. -/
def wordsToBytes : List Nat → List Nat
  | [] => []
  | w :: rest =>
    (w / 16777216 % 256) :: (w / 65536 % 256) :: (w / 256 % 256) :: (w % 256) ::
      wordsToBytes rest

/-- SHA-256 of a byte list, as a 32-byte list. -/
def sha256 (msg : List Nat) : List Nat :=
  wordsToBytes (sha256blocks sha256H0 (sha256pad msg)).toList

/-- UTF-8 bytes of a string, as `Nat`s. -/
def utf8Bytes (s : String) : List Nat :=
  s.toUTF8.toList.map UInt8.toNat

/-- `HashService.generateContentHash`: clean the content
(`trim` + collapse whitespace runs) and SHA-256 the UTF-8 bytes. -/
def generateContentHash (content : String) : List Nat :=
  sha256 (utf8Bytes (cleanContent content))

def hexDigitChar (n : Nat) : Char :=
  if n < 10 then Char.ofNat (48 + n) else Char.ofNat (87 + n)

def byteToHexChars (b : Nat) : List Char :=
  [hexDigitChar (b / 16 % 16), hexDigitChar (b % 16)]

/-- Lowercase hex rendering of a byte list (`buffer.toString('hex')`). -/
def bytesToHex (l : List Nat) : String :=
  String.mk (l.flatMap byteToHexChars)

/-- `HashService.generateContentHashHex`. -/
def generateContentHashHex (content : String) : String :=
  bytesToHex (generateContentHash content)

def hexDigitVal (c : Char) : Option Nat :=
  if '0' ≤ c ∧ c ≤ '9' then some (c.toNat - 48)
  else if 'a' ≤ c ∧ c ≤ 'f' then some (c.toNat - 87)
  else if 'A' ≤ c ∧ c ≤ 'F' then some (c.toNat - 55)
  else none

/-- `Buffer.from(hex, 'hex')`: decode pairs, stopping at the first bad pair. -/
def hexPairs : List Char → List Nat
  | a :: b :: rest =>
    match hexDigitVal a, hexDigitVal b with
    | some x, some y => (x * 16 + y) :: hexPairs rest
    | _, _ => []
  | _ => []

/-- `HashService.hexToBuffer`: strip an optional `0x` and decode hex. -/
def hexToBuffer (hexString : String) : List Nat :=
  let clean := if hexString.startsWith "0x" then hexString.drop 2 else hexString
  hexPairs clean.data

/-! ## BlockchainService (src/app.ts, class BlockchainService)

Every ledger RPC (`fetchCallReadOnlyFunction` + `cvToJSON`) is modelled by
an environment function giving that call's outcome; a thrown transport or
decoding error is the `exn` outcome. -/

/-- `ContractConfig` used to construct `BlockchainService`. -/
structure ContractConfig where
  contractAddress : String
  contractName : String
  network : String
deriving DecidableEq

/-- Hardcoded older contract coordinates on `BlockchainService`. -/
def contractAddressV2 : String := "SPVQ61FEWR6M4HVAT3BNE07D4BNW6A1C2ACCNQ6F"

def contractNameV2 : String := "truthchain_v2"

def contractAddressV1 : String := "SP1S7KX8TVSAWJ8CVJZQSFERBQ8BNCDXYFHXT21Z9"

def contractNameV1 : String := "truthchain_v1"

/-- Decoded JSON value of a read-only call (`cvToJSON(result).value`). -/
inductive ClarityValue where
  | boolCV (b : Bool)
  | other (tag : String)
deriving DecidableEq

/-- Outcome of one `fetchCallReadOnlyFunction` + `cvToJSON` round trip:
either a decoded value, or a thrown transport/decoding error. -/
inductive RpcOutcome where
  | ok (value : ClarityValue)
  | exn (msg : String)
deriving DecidableEq

/-- Decoded fields of a successful `verify-content` call. -/
structure VerifyContentData where
  author : String
  bnsName : Option String
  blockHeight : Nat
  timestamp : Nat
  registrationId : Nat
deriving DecidableEq

/-- Outcome of the `verify-content` detail fetch: decoded data, a response
whose `success`/`value` shape cannot be decoded, or a thrown error. -/
inductive DetailOutcome where
  | ok (data : VerifyContentData)
  | undecodable
  | exn (msg : String)
deriving DecidableEq

/-- The ledger as seen through the RPC boundary: one outcome per call,
keyed by contract address, contract name, and hash bytes. -/
structure ChainEnv where
  hashExistsCall : String → String → List Nat → RpcOutcome
  verifyContentCall : String → String → List Nat → DetailOutcome
  statsCall : String → String → RpcOutcome
  nowSeconds : Nat

/-- Result record produced by the verification paths (`TweetRegistration`). -/
structure TweetRegistration where
  hash : List Nat
  author : String
  bnsName : Option String
  blockHeight : Nat
  timestamp : Nat
  registrationId : Nat
deriving DecidableEq

namespace BlockchainService

/-- `hashExistsOnContract`: `jsonResult.value === true`, `false` on any
thrown error. -/
def hashExistsOnContract (env : ChainEnv) (contractAddress contractName : String)
    (contentHash : List Nat) : Bool :=
  match env.hashExistsCall contractAddress contractName contentHash with
  | .ok v => v == .boolCV true
  | .exn _ => false

/-- `verifyOnContract`: existence check first; on existence, the detail
fetch, falling back to a degraded record (author `unknown`, zero block
height, current-time timestamp, zero registration id) when the details
cannot be fetched or decoded. -/
def verifyOnContract (env : ChainEnv) (contractAddress contractName : String)
    (contentHash : List Nat) : Option TweetRegistration :=
  if hashExistsOnContract env contractAddress contractName contentHash then
    match env.verifyContentCall contractAddress contractName contentHash with
    | .ok d =>
      some ⟨contentHash, d.author, d.bnsName, d.blockHeight, d.timestamp,
        d.registrationId⟩
    | _ => some ⟨contentHash, "unknown", none, 0, env.nowSeconds, 0⟩
  else none

/-- `BlockchainService.verifyTweet`: v3 (the configured primary contract)
first, then — only on mainnet — v2 and then v1, stopping at the first
contract that reports the hash. -/
def verifyTweet (env : ChainEnv) (config : ContractConfig)
    (contentHash : List Nat) : Option TweetRegistration :=
  match verifyOnContract env config.contractAddress config.contractName contentHash with
  | some r => some r
  | none =>
    if config.network == "mainnet" then
      match verifyOnContract env contractAddressV2 contractNameV2 contentHash with
      | some r => some r
      | none => verifyOnContract env contractAddressV1 contractNameV1 contentHash
    else none

/-- `BlockchainService.hashExists`: existence probe on the configured
primary contract only. -/
def hashExists (env : ChainEnv) (config : ContractConfig)
    (contentHash : List Nat) : Bool :=
  hashExistsOnContract env config.contractAddress config.contractName contentHash

/-- `BlockchainService.getContractStats`: the decoded stats JSON, or
`null` on any thrown error. -/
def getContractStats (env : ChainEnv) (config : ContractConfig) :
    Option ClarityValue :=
  match env.statsCall config.contractAddress config.contractName with
  | .ok v => some v
  | .exn _ => none

end BlockchainService

/-! ## Document models (shared/models: Registration, VerificationCache)

Dates are `Nat` milliseconds.  Mongoose-optional fields are `Option`; a
cache document whose `result` is missing or whose `result.isRegistered` is
not a boolean is modelled by `result = none`. -/

/-- `IVerificationResult` payload of a cache entry. -/
structure VerificationResult where
  isRegistered : Bool
  registrationDate : Option Nat
  authorWallet : Option String
  bnsName : Option String
  bnsStatus : Option String
  txId : Option String
  blockHeight : Option Nat
deriving DecidableEq

/-- `IVerificationCache` document (`result = none` models a structurally
corrupt entry). -/
structure CacheEntry where
  result : Option VerificationResult
  expiresAt : Nat
  hits : Nat
  lastAccessed : Nat
deriving DecidableEq

/-- `blockchain` subdocument of a Registration. -/
structure BlockchainData where
  status : String
  txId : Option String
  blockHeight : Option Nat
  timestamp : Option Nat
  registrationId : Option Nat
deriving DecidableEq

/-- `IRegistration` document (the fields the resolver and the BNS sweep
read or write). -/
structure RegistrationDoc where
  contentHash : String
  authorWallet : String
  bnsName : Option String
  bnsStatus : Option String
  lastBnsValidation : Option Nat
  currentBnsOwner : Option String
  bnsTransferredAt : Option Nat
  blockchain : BlockchainData
  createdAt : Nat
  contentUrl : Option String
  twitterHandle : Option String
  analyticsVerifications : Nat
deriving DecidableEq

/-- The schema default of `RegistrationSchema.bnsStatus`. -/
def bnsStatusDefault : String := "valid"

/-- MongoDB state visible to the verification controller: the
`verification_cache` collection keyed by `contentHash` (unique) and the
`registrations` collection keyed by `contentHash` (unique). -/
structure DBState where
  cache : String → Option CacheEntry
  registrations : String → Option RegistrationDoc

def deleteCacheEntry (db : DBState) (hashHex : String) : DBState :=
  ⟨fun k => if k == hashHex then none else db.cache k, db.registrations⟩

def upsertCacheEntry (db : DBState) (hashHex : String)
    (result : VerificationResult) (expiresAt lastAccessed : Nat) : DBState :=
  ⟨fun k =>
    if k == hashHex then
      some ⟨some result, expiresAt,
        (match db.cache hashHex with
         | some e => e.hits + 1
         | none => 1),
        lastAccessed⟩
    else db.cache k,
   db.registrations⟩

/-- `$inc analytics.verifications` on the registration with this hash. -/
def incVerifications (db : DBState) (hashHex : String) : DBState :=
  ⟨db.cache, fun k =>
    if k == hashHex then
      (db.registrations k).map fun r =>
        { r with analyticsVerifications := r.analyticsVerifications + 1 }
    else db.registrations k⟩

/-! ## VerificationController (src/routes/index.ts) -/

/-- Response `data` payload of `POST /verify`. -/
structure VerifyData where
  hash : String
  author : String
  bnsName : Option String
  bnsStatus : Option String
  registeredAt : Option Nat
  blockHeight : Nat
  registrationId : Option Nat
  txId : Option String
deriving DecidableEq

/-- Response envelope of `POST /verify` (`status` is the HTTP status). -/
structure VerifyResponse where
  status : Nat
  success : Bool
  verified : Bool
  message : String
  data : Option VerifyData
deriving DecidableEq

namespace VerificationController

/-- Step 3 of the resolver: blockchain fallback with cache write-back. -/
def verifyStep3 (env : ChainEnv) (config : ContractConfig) (db : DBState)
    (now : Nat) (tweetContent : Option String) (hash : Option String)
    (hashHex : String) : DBState × VerifyResponse :=
  let contentHash :=
    match tweetContent with
    | some c => generateContentHash c
    | none => hexToBuffer (hash.getD "")
  match BlockchainService.verifyTweet env config contentHash with
  | none =>
    (upsertCacheEntry db hashHex ⟨false, none, none, none, none, none, none⟩
       (now + 3600000) now,
     ⟨200, true, false, "Content not found on blockchain", none⟩)
  | some v =>
    let dateMs := if v.timestamp > 1000000000000 then v.timestamp else v.timestamp * 1000
    (upsertCacheEntry db hashHex
       ⟨true, some dateMs, some v.author, v.bnsName, some "valid", none,
         some v.blockHeight⟩ (now + 3600000) now,
     ⟨200, true, true, "Content verified successfully",
       some ⟨hashHex, v.author, v.bnsName, some "valid", some dateMs,
         v.blockHeight, some v.registrationId, none⟩⟩)

/-- Step 2 of the resolver: registration-store lookup (status `confirmed`
or `pending`), with positive cache write-back, else step 3. -/
def verifyStep2 (env : ChainEnv) (config : ContractConfig) (db : DBState)
    (now : Nat) (tweetContent : Option String) (hash : Option String)
    (hashHex : String) : DBState × VerifyResponse :=
  match db.registrations hashHex with
  | some reg =>
    if reg.blockchain.status == "confirmed" || reg.blockchain.status == "pending" then
      let db1 := upsertCacheEntry db hashHex
        ⟨true, some (reg.blockchain.timestamp.getD now), some reg.authorWallet,
          reg.bnsName, some (reg.bnsStatus.getD "valid"),
          some (reg.blockchain.txId.getD ""),
          some (reg.blockchain.blockHeight.getD 0)⟩ (now + 3600000) now
      let db2 := incVerifications db1 hashHex
      (db2,
       ⟨200, true, true, "Content verified successfully",
         some ⟨hashHex, reg.authorWallet, reg.bnsName,
           some (reg.bnsStatus.getD "valid"),
           some (reg.blockchain.timestamp.getD reg.createdAt),
           reg.blockchain.blockHeight.getD 0,
           some (reg.blockchain.registrationId.getD 0),
           some (reg.blockchain.txId.getD "")⟩⟩)
    else verifyStep3 env config db now tweetContent hash hashHex
  | none => verifyStep3 env config db now tweetContent hash hashHex

/-- `VerificationController.verifyTweet` (`POST /verify`): cache →
registration store → multi-version chain fallback.  A live positive cache
entry is served directly; a live negative entry is deleted and the store
is consulted; a corrupt entry is deleted and the store is consulted. -/
def verifyTweet (env : ChainEnv) (config : ContractConfig) (db : DBState)
    (now : Nat) (tweetContent : Option String) (hash : Option String) :
    DBState × VerifyResponse :=
  match tweetContent, hash with
  | none, none =>
    (db, ⟨400, false, false, "Either tweet content or hash is required", none⟩)
  | _, _ =>
    let hashHex :=
      match tweetContent with
      | some c => generateContentHashHex c
      | none => hash.getD ""
    match db.cache hashHex with
    | some cached =>
      if now < cached.expiresAt then
        match cached.result with
        | none =>
          verifyStep2 env config (deleteCacheEntry db hashHex) now
            tweetContent hash hashHex
        | some r =>
          if r.isRegistered then
            (incVerifications db hashHex,
             ⟨200, true, true, "Content verified (cached)",
               some ⟨hashHex, r.authorWallet.getD "", r.bnsName,
                 some (r.bnsStatus.getD "valid"), r.registrationDate,
                 r.blockHeight.getD 0, none, r.txId⟩⟩)
          else
            verifyStep2 env config (deleteCacheEntry db hashHex) now
              tweetContent hash hashHex
      else verifyStep2 env config db now tweetContent hash hashHex
    | none => verifyStep2 env config db now tweetContent hash hashHex

/-- Response of `GET /verify/:hash`. -/
structure QuickVerifyResponse where
  status : Nat
  success : Bool
  verified : Bool
  message : String
  dataHash : Option String
  dataExists : Option Bool
deriving DecidableEq

/-- `VerificationController.quickVerify` (`GET /verify/:hash`): an
existence probe through `BlockchainService.hashExists` only. -/
def quickVerify (env : ChainEnv) (config : ContractConfig)
    (hash : Option String) : QuickVerifyResponse :=
  match hash with
  | none => ⟨400, false, false, "Hash parameter is required", none, none⟩
  | some h =>
    let ex := BlockchainService.hashExists env config (hexToBuffer h)
    ⟨200, true, ex, if ex then "Content verified" else "Content not found",
      some h, some ex⟩

/-- One item of a `POST /verify/batch` request. -/
structure BatchItem where
  content : Option String
  hash : Option String
deriving DecidableEq

/-- Per-item `data` payload of a batch result. -/
structure BatchData where
  author : String
  registeredAt : Nat
  blockHeight : Nat
  registrationId : Nat
deriving DecidableEq

/-- One entry of the batch `results` array. -/
structure BatchResult where
  success : Bool
  verified : Bool
  hash : Option String
  data : Option BatchData
  error : Option String
deriving DecidableEq

/-- Response envelope of `POST /verify/batch`. -/
structure BatchResponse where
  status : Nat
  success : Bool
  message : String
  results : List BatchResult
deriving DecidableEq

/-- One iteration of the batch loop: hash the item (content takes
precedence), then the chain fallback; a malformed item yields an error
entry without touching the chain. -/
def processBatchItem (env : ChainEnv) (config : ContractConfig)
    (item : BatchItem) : BatchResult :=
  match item.content, item.hash with
  | some c, _ =>
    let verification := BlockchainService.verifyTweet env config (generateContentHash c)
    ⟨true, verification.isSome, some (generateContentHashHex c),
      verification.map (fun v => ⟨v.author, v.timestamp * 1000, v.blockHeight,
        v.registrationId⟩), none⟩
  | none, some hx =>
    let verification := BlockchainService.verifyTweet env config (hexToBuffer hx)
    ⟨true, verification.isSome, some hx,
      verification.map (fun v => ⟨v.author, v.timestamp * 1000, v.blockHeight,
        v.registrationId⟩), none⟩
  | none, none =>
    ⟨false, false, none, none, some "Either content or hash required"⟩

/-- `VerificationController.batchVerify` (`POST /verify/batch`): 400 on a
missing/empty items array or more than 10 items; otherwise one result per
item, in order. -/
def batchVerify (env : ChainEnv) (config : ContractConfig)
    (items : Option (List BatchItem)) : BatchResponse :=
  match items with
  | none => ⟨400, false, "Items array is required for batch verification", []⟩
  | some l =>
    if l.isEmpty then
      ⟨400, false, "Items array is required for batch verification", []⟩
    else if l.length > 10 then
      ⟨400, false, "Maximum 10 items allowed per batch request", []⟩
    else
      ⟨200, true, "Batch verification completed", l.map (processBatchItem env config)⟩

end VerificationController

/-! ## BNSValidationService (src/services/BNSValidationService.ts)

The external name registry is an environment function giving one outcome
per wallet address: a 2xx JSON body (whose `names` field may be missing),
a non-2xx response, or a thrown fetch/decode error. -/

/-- Outcome of `fetch({registry}/v1/addresses/stacks/{address}/names)`. -/
inductive FetchOutcome where
  | ok (names : Option (List String))
  | httpError (status : Nat)
  | networkError (msg : String)
deriving DecidableEq

/-- Whether the fetch failed (non-2xx or thrown), as opposed to any 2xx
response. -/
def FetchOutcome.isFailure : FetchOutcome → Bool
  | .ok _ => false
  | .httpError _ => true
  | .networkError _ => true

/-- The external name registry plus the sweep's clock (milliseconds). -/
structure BNSEnv where
  fetchNames : String → FetchOutcome
  now : Nat

namespace BNSValidationService

/-- `fetchWalletBNSNames`: the `names` array on 2xx, `[]` on a missing
`names` field, a non-ok response (warn) or a thrown error (error log). -/
def fetchWalletBNSNames (env : BNSEnv) (walletAddress : String) : List String :=
  match env.fetchNames walletAddress with
  | .ok names => names.getD []
  | .httpError _ => []
  | .networkError _ => []

/-- `BNSValidationResult`. -/
structure BNSValidationResult where
  isValid : Bool
  currentNames : List String
  hasOriginalBNS : Bool
  status : String
  newOwner : Option String
deriving DecidableEq

/-- `validateRegistration`: classify one registration's BNS binding
against the wallet's currently-owned names. -/
def validateRegistration (env : BNSEnv) (originalBNS walletAddress : String) :
    BNSValidationResult :=
  let currentNames := fetchWalletBNSNames env walletAddress
  if currentNames.contains originalBNS then
    ⟨true, currentNames, true, "valid", none⟩
  else if currentNames.length > 0 then
    ⟨false, currentNames, false, "transferred", none⟩
  else
    ⟨false, [], false, "no-longer-owned", none⟩

/-- The staleness filter of `validateStaleRegistrations`: a non-null
`bnsName` and a `lastBnsValidation` missing or older than the cutoff. -/
def isStale (now maxAge : Nat) (r : RegistrationDoc) : Bool :=
  r.bnsName.isSome &&
    (match r.lastBnsValidation with
     | some t => decide (t < now - maxAge)
     | none => true)

/-- The sweep's selection: stale registrations, limited to a batch of
100. -/
def selectStale (now maxAge : Nat) (collection : List RegistrationDoc) :
    List RegistrationDoc :=
  (collection.filter (isStale now maxAge)).take 100

/-- The per-record update of `validateStaleRegistrations`: set
`lastBnsValidation` and `bnsStatus` from the classification, and on a
transfer stamp `bnsTransferredAt` and record `currentBnsOwner` as the
first currently-owned name. -/
def updateValidatedReg (env : BNSEnv) (r : RegistrationDoc) : RegistrationDoc :=
  let result := validateRegistration env (r.bnsName.getD "") r.authorWallet
  { r with
    lastBnsValidation := some env.now
    bnsStatus := some result.status
    bnsTransferredAt :=
      if result.status == "transferred" then some env.now else r.bnsTransferredAt
    currentBnsOwner :=
      if result.status == "transferred" then result.currentNames.head?
      else r.currentBnsOwner }

/-- `validateStaleRegistrations`: select up to 100 stale registrations,
update each from the registry classification, and return the updated batch
together with the validated count. -/
def validateStaleRegistrations (env : BNSEnv) (collection : List RegistrationDoc)
    (maxAge : Nat) : List RegistrationDoc × Nat :=
  let batch := selectStale env.now maxAge collection
  (batch.map (updateValidatedReg env), batch.length)

/-- Default `maxAge` of the sweep: 24 hours in milliseconds. -/
def defaultMaxAge : Nat := 24 * 60 * 60 * 1000

end BNSValidationService

/-! ## Concrete fixtures

Closed environments, documents and requests used to instantiate the
theorems below at concrete inputs. -/

/-- A mainnet `ContractConfig` with a primary (v3) contract distinct from
the hardcoded v2/v1 coordinates. -/
def configMainnet : ContractConfig :=
  ⟨"SP2MAINPRIMARYADDRESS", "truthchain_v3", "mainnet"⟩

/-- A 32-byte all-zero hash. -/
def hash32 : List Nat := List.replicate 32 0

/-- The 64-character lowercase hex rendering of `hash32`. -/
def hashHex64 : String := String.mk (List.replicate 64 '0')

/-- Empty cache and registration collections. -/
def dbEmpty : DBState := ⟨fun _ => none, fun _ => none⟩

/-- A ledger on which no contract reports any hash. -/
def envQuiet : ChainEnv :=
  ⟨fun _ _ _ => .ok (.boolCV false), fun _ _ _ => .undecodable,
   fun _ _ => .exn "stats down", 1700000000⟩

/-- A ledger on which only the oldest (v1) contract reports the hash and
details decode fine. -/
def envV1Only : ChainEnv :=
  ⟨fun addr _ _ =>
     if addr == contractAddressV1 then .ok (.boolCV true) else .ok (.boolCV false),
   fun _ _ _ => .ok ⟨"SP1OLDAUTHOR", none, 5, 1600000000, 7⟩,
   fun _ _ => .exn "stats down", 1700000000⟩

/-- A ledger on which every contract reports existence but the detail
fetch always throws. -/
def envDetailFail : ChainEnv :=
  ⟨fun _ _ _ => .ok (.boolCV true), fun _ _ _ => .exn "timeout",
   fun _ _ => .exn "timeout", 1700000000⟩

/-- A ledger on which every RPC throws. -/
def envAllExn : ChainEnv :=
  ⟨fun _ _ _ => .exn "boom", fun _ _ _ => .exn "boom",
   fun _ _ => .exn "boom", 1700000000⟩

/-- An unexpired negative cache entry. -/
def cacheEntryNeg : CacheEntry :=
  ⟨some ⟨false, none, none, none, none, none, none⟩, 2000000, 3, 500⟩

/-- A confirmed registration for hash `"abcd"`. -/
def regConfirmed : RegistrationDoc :=
  ⟨"abcd", "SPWALLETA", some "alice.btc", some "valid", none, none, none,
   ⟨"confirmed", some "0xdeadbeef", some 7, some 1600000123, some 42⟩,
   1500000000, none, none, 0⟩

/-- Database holding the negative cache entry and the confirmed
registration, both keyed by `"abcd"`. -/
def dbNegCache : DBState :=
  ⟨fun k => if k == "abcd" then some cacheEntryNeg else none,
   fun k => if k == "abcd" then some regConfirmed else none⟩

/-- Eleven batch items (over the limit). -/
def itemsEleven : List VerificationController.BatchItem :=
  List.replicate 11 ⟨none, some "00"⟩

/-- A two-item batch: one hash item and one malformed (`{}`) item. -/
def itemsTwo : List VerificationController.BatchItem :=
  [⟨none, some "00"⟩, ⟨none, none⟩]

/-- A name registry that is completely down. -/
def envOutage : BNSEnv := ⟨fun _ => .networkError "ECONNREFUSED", 200000000000⟩

/-- A stale, currently-`valid` registration bound to `alice.btc`. -/
def regStaleValid : RegistrationDoc :=
  ⟨"h3", "SPWALLETB", some "alice.btc", some "valid", none, none, none,
   ⟨"confirmed", none, none, none, none⟩, 0, none, none, 0⟩

/-- A registry where every wallet currently owns exactly `alice.btc`. -/
def envRegained : BNSEnv := ⟨fun _ => .ok (some ["alice.btc"]), 200000000000⟩

/-- A stale registration bound to `alice.btc` previously marked
`transferred`. -/
def regTransferred : RegistrationDoc :=
  ⟨"h4", "SPWALLETC", some "alice.btc", some "transferred", some 0,
   some "SPOTHER", some 0, ⟨"confirmed", none, none, none, none⟩, 0, none,
   none, 0⟩

/-- A registry where every wallet currently owns exactly `bob.btc`. -/
def envBobOnly : BNSEnv := ⟨fun _ => .ok (some ["bob.btc"]), 200000000000⟩

/-! ## Lemmas: whitespace normalization -/

theorem getLast?_cons_of_ne_nil (a : Char) (l : List Char) (h : l ≠ []) :
    (a :: l).getLast? = l.getLast? := by
  cases l with
  | nil => exact absurd rfl h
  | cons b t => exact List.getLast?_cons_cons

theorem collapseWsAux_cons_pos_false (c : Char) (rest : List Char)
    (h : jsWhitespace c = true) :
    collapseWsAux false (c :: rest) = ' ' :: collapseWsAux true rest := by
  simp [collapseWsAux, h]

theorem collapseWsAux_cons_pos_true (c : Char) (rest : List Char)
    (h : jsWhitespace c = true) :
    collapseWsAux true (c :: rest) = collapseWsAux true rest := by
  simp [collapseWsAux, h]

theorem collapseWsAux_cons_neg (b : Bool) (c : Char) (rest : List Char)
    (h : jsWhitespace c = false) :
    collapseWsAux b (c :: rest) = c :: collapseWsAux false rest := by
  cases b <;> simp [collapseWsAux, h]

theorem collapseWsAux_true_eq (rest : List Char) :
    collapseWsAux true rest = collapseWsAux false (rest.dropWhile jsWhitespace) := by
  induction rest with
  | nil => rfl
  | cons a t ih =>
    by_cases h : jsWhitespace a = true
    · rw [List.dropWhile_cons_of_pos h]
      simpa [collapseWsAux, h] using ih
    · rw [List.dropWhile_cons_of_neg (by simp [h])]
      simp [collapseWsAux, h]

/-- `collapseWs` realizes the `/\s+/g → ' '` rewriting: a leading
whitespace run becomes one space and the rest of the run is skipped. -/
theorem collapseWs_cons (c : Char) (rest : List Char) :
    collapseWs (c :: rest) =
      if jsWhitespace c then ' ' :: collapseWs (rest.dropWhile jsWhitespace)
      else c :: collapseWs rest := by
  by_cases h : jsWhitespace c = true
  · simp [collapseWs, collapseWsAux, h, collapseWsAux_true_eq]
  · simp [collapseWs, collapseWsAux, h]

theorem collapseWs_of_wsNormalized (l : List Char) (h : wsNormalized l = true) :
    collapseWs l = l := by
  induction l with
  | nil => rfl
  | cons c rest ih =>
    cases rest with
    | nil =>
      by_cases hc : jsWhitespace c = true
      · have hc' : c = ' ' := by
          simp [wsNormalized, hc] at h
          exact h
        subst hc'
        simp [collapseWs, collapseWsAux, hc]
      · simp [collapseWs, collapseWsAux, hc]
    | cons c2 t =>
      simp only [wsNormalized, Bool.and_eq_true, Bool.or_eq_true,
        Bool.not_eq_true', beq_iff_eq] at h
      obtain ⟨h1, h2⟩ := h
      have ihr := ih h2
      by_cases hc : jsWhitespace c = true
      · rcases h1 with h1 | ⟨hcsp, hc2⟩
        · rw [h1] at hc; exact absurd hc (by simp)
        · subst hcsp
          show collapseWsAux false (' ' :: c2 :: t) = ' ' :: c2 :: t
          rw [collapseWsAux_cons_pos_false _ _ hc,
            collapseWsAux_cons_neg true c2 t hc2]
          have h3 : c2 :: collapseWsAux false t = c2 :: t := by
            rw [← collapseWsAux_cons_neg false c2 t hc2]
            exact ihr
          rw [h3]
      · show collapseWsAux false (c :: c2 :: t) = c :: c2 :: t
        rw [collapseWsAux_cons_neg false c (c2 :: t) (by simpa using hc)]
        exact congrArg _ ihr

theorem collapseWsAux_invariant (l : List Char) :
    wsNormalized (collapseWsAux true l) = true ∧
    noLeadWs (collapseWsAux true l) = true ∧
    wsNormalized (collapseWsAux false l) = true := by
  induction l with
  | nil => exact ⟨rfl, rfl, rfl⟩
  | cons c rest ih =>
    obtain ⟨ih1, ih2, ih3⟩ := ih
    by_cases hc : jsWhitespace c = true
    · refine ⟨?_, ?_, ?_⟩
      · simpa [collapseWsAux, hc] using ih1
      · simpa [collapseWsAux, hc] using ih2
      · simp only [collapseWsAux, hc, if_pos, ite_true]
        cases hx : collapseWsAux true rest with
        | nil => decide
        | cons d t =>
          have hd : jsWhitespace d = false := by
            rw [hx] at ih2
            simpa [noLeadWs] using ih2
          have hw : wsNormalized (d :: t) = true := by rw [hx] at ih1; exact ih1
          simp [wsNormalized, hd, hw]
    · have key : wsNormalized (c :: collapseWsAux false rest) = true := by
        cases hx : collapseWsAux false rest with
        | nil => simp [wsNormalized, hc]
        | cons d t =>
          have hw : wsNormalized (d :: t) = true := by rw [hx] at ih3; exact ih3
          simp [wsNormalized, hc, hw]
      refine ⟨?_, ?_, ?_⟩
      · simpa [collapseWsAux, hc] using key
      · simp [collapseWsAux, hc, noLeadWs]
      · simpa [collapseWsAux, hc] using key

theorem wsNormalized_collapseWs (l : List Char) :
    wsNormalized (collapseWs l) = true :=
  (collapseWsAux_invariant l).2.2

theorem collapseWsAux_getLast (l : List Char) :
    ∀ b c, l.getLast? = some c → jsWhitespace c = false →
      ∃ d, (collapseWsAux b l).getLast? = some d ∧ jsWhitespace d = false := by
  induction l with
  | nil => intro b c h _; simp at h
  | cons a t ih =>
    intro b c h hc
    cases t with
    | nil =>
      have ha : a = c := by simpa using h
      subst ha
      refine ⟨a, ?_, hc⟩
      rw [collapseWsAux_cons_neg b a [] hc]
      rfl
    | cons t1 t2 =>
      have h' : (t1 :: t2).getLast? = some c := by
        rw [List.getLast?_cons_cons] at h; exact h
      by_cases ha : jsWhitespace a = true
      · cases b with
        | true =>
          rw [collapseWsAux_cons_pos_true a _ ha]
          exact ih true c h' hc
        | false =>
          obtain ⟨d, hd, hdws⟩ := ih true c h' hc
          refine ⟨d, ?_, hdws⟩
          have hne : collapseWsAux true (t1 :: t2) ≠ [] := by
            intro hnil; rw [hnil] at hd; simp at hd
          rw [collapseWsAux_cons_pos_false a _ ha,
            getLast?_cons_of_ne_nil _ _ hne]
          exact hd
      · obtain ⟨d, hd, hdws⟩ := ih false c h' hc
        refine ⟨d, ?_, hdws⟩
        have hne : collapseWsAux false (t1 :: t2) ≠ [] := by
          intro hnil; rw [hnil] at hd; simp at hd
        rw [collapseWsAux_cons_neg b a _ (by simpa using ha),
          getLast?_cons_of_ne_nil _ _ hne]
        exact hd

theorem noLeadWs_collapseWs (l : List Char) (h : noLeadWs l = true) :
    noLeadWs (collapseWs l) = true := by
  cases l with
  | nil => rfl
  | cons a t =>
    have ha : jsWhitespace a = false := by simpa [noLeadWs] using h
    simp [collapseWs, collapseWsAux, ha, noLeadWs]

theorem dropWhile_head? (p : Char → Bool) (l : List Char) :
    (l.dropWhile p).head? = none ∨
      ∃ c, (l.dropWhile p).head? = some c ∧ p c = false := by
  induction l with
  | nil => left; rfl
  | cons a t ih =>
    by_cases h : p a = true
    · rw [List.dropWhile_cons_of_pos h]; exact ih
    · right
      refine ⟨a, ?_, by simpa using h⟩
      rw [List.dropWhile_cons_of_neg (by simp [h])]
      rfl

theorem dropWhile_getLast? (p : Char → Bool) (l : List Char) :
    l.dropWhile p = [] ∨ (l.dropWhile p).getLast? = l.getLast? := by
  induction l with
  | nil => left; rfl
  | cons a t ih =>
    by_cases h : p a = true
    · rw [List.dropWhile_cons_of_pos h]
      rcases ih with h1 | h1
      · left; exact h1
      · by_cases ht : t.dropWhile p = []
        · left; exact ht
        · right
          have htne : t ≠ [] := by
            intro hh
            rw [hh] at ht
            exact ht rfl
          rw [h1, getLast?_cons_of_ne_nil a t htne]
    · right
      rw [List.dropWhile_cons_of_neg (by simp [h])]

theorem dropWhile_of_noLeadWs (m : List Char) (h : noLeadWs m = true) :
    m.dropWhile jsWhitespace = m := by
  cases m with
  | nil => rfl
  | cons a t =>
    have ha : jsWhitespace a = false := by simpa [noLeadWs] using h
    exact List.dropWhile_cons_of_neg (by simp [ha])

theorem trimChars_noLeadWs (l : List Char) : noLeadWs (trimChars l) = true := by
  unfold trimChars noLeadWs
  rw [List.head?_reverse]
  rcases dropWhile_getLast? jsWhitespace (l.dropWhile jsWhitespace).reverse with h | h
  · rw [h]
    rfl
  · rw [h, List.getLast?_reverse]
    rcases dropWhile_head? jsWhitespace l with h2 | ⟨c, h2, hc⟩
    · rw [h2]
    · rw [h2]
      simp [hc]

theorem trimChars_getLast? (l : List Char) :
    (trimChars l).getLast? = none ∨
      ∃ c, (trimChars l).getLast? = some c ∧ jsWhitespace c = false := by
  unfold trimChars
  rw [List.getLast?_reverse]
  exact dropWhile_head? jsWhitespace _

theorem noLeadWs_of_getLast?_reverse (m : List Char)
    (h : m.getLast? = none ∨ ∃ c, m.getLast? = some c ∧ jsWhitespace c = false) :
    noLeadWs m.reverse = true := by
  unfold noLeadWs
  rw [List.head?_reverse]
  rcases h with h | ⟨c, h, hc⟩
  · rw [h]
  · rw [h]
    simp [hc]

theorem trimChars_of_collapsed_trimmed (l : List Char) :
    trimChars (collapseWs (trimChars l)) = collapseWs (trimChars l) := by
  have hlead : noLeadWs (collapseWs (trimChars l)) = true :=
    noLeadWs_collapseWs _ (trimChars_noLeadWs l)
  have hlast : (collapseWs (trimChars l)).getLast? = none ∨
      ∃ c, (collapseWs (trimChars l)).getLast? = some c ∧ jsWhitespace c = false := by
    rcases trimChars_getLast? l with h | ⟨c, h, hc⟩
    · left
      have : trimChars l = [] := by simpa using h
      rw [this]
      rfl
    · right
      exact collapseWsAux_getLast (trimChars l) false c h hc
  show (List.dropWhile jsWhitespace
      ((collapseWs (trimChars l)).dropWhile jsWhitespace).reverse).reverse =
    collapseWs (trimChars l)
  rw [dropWhile_of_noLeadWs _ hlead,
    dropWhile_of_noLeadWs _ (noLeadWs_of_getLast?_reverse _ hlast),
    List.reverse_reverse]

theorem cleanContent_idempotent (s : String) :
    cleanContent (cleanContent s) = cleanContent s := by
  show String.mk (collapseWs (trimChars (collapseWs (trimChars s.data)))) =
    String.mk (collapseWs (trimChars s.data))
  rw [trimChars_of_collapsed_trimmed]
  exact congrArg _ (collapseWs_of_wsNormalized _ (wsNormalized_collapseWs _))

/-! ## Claim theorems -/

/-- C6: for every string `s`, `generateContentHash s` equals
`generateContentHash` applied to the trim-and-collapse normalization of
`s` (`cleanContent`), and in particular the two example inputs — one with
extra/irregular whitespace — hash to the identical 32-byte digest. -/
theorem c6_hash_normalization_idempotence :
    (∀ s : String, generateContentHash s = generateContentHash (cleanContent s)) ∧
    generateContentHash "Just launched my new startup! 🚀" =
      generateContentHash "Just   launched my new startup! 🚀  " := by
  constructor
  · intro s
    show sha256 (utf8Bytes (cleanContent s)) =
      sha256 (utf8Bytes (cleanContent (cleanContent s)))
    rw [cleanContent_idempotent]
  · show sha256 (utf8Bytes (cleanContent "Just launched my new startup! 🚀")) =
      sha256 (utf8Bytes (cleanContent "Just   launched my new startup! 🚀  "))
    have h : cleanContent "Just launched my new startup! 🚀" =
        cleanContent "Just   launched my new startup! 🚀  " := by decide
    rw [h]

/-- C2: `BlockchainService.verifyTweet` checks the configured primary (v3)
contract first and returns its record when found; only on mainnet does it
fall through to v2 and then v1, stopping at the first contract reporting
existence; off mainnet it never consults the older contracts; and a hash
that exists only in v1 on mainnet still verifies. -/
theorem c2_version_fallback_ordering (env : ChainEnv) (config : ContractConfig)
    (h : List Nat) :
    (∀ r, BlockchainService.verifyOnContract env config.contractAddress
        config.contractName h = some r →
      BlockchainService.verifyTweet env config h = some r) ∧
    (config.network = "mainnet" →
      BlockchainService.verifyOnContract env config.contractAddress
        config.contractName h = none →
      ∀ r, BlockchainService.verifyOnContract env contractAddressV2
          contractNameV2 h = some r →
        BlockchainService.verifyTweet env config h = some r) ∧
    (config.network = "mainnet" →
      BlockchainService.verifyOnContract env config.contractAddress
        config.contractName h = none →
      BlockchainService.verifyOnContract env contractAddressV2
        contractNameV2 h = none →
      BlockchainService.verifyTweet env config h =
        BlockchainService.verifyOnContract env contractAddressV1
          contractNameV1 h) ∧
    (config.network ≠ "mainnet" →
      BlockchainService.verifyTweet env config h =
        BlockchainService.verifyOnContract env config.contractAddress
          config.contractName h) ∧
    (config.network = "mainnet" →
      BlockchainService.hashExistsOnContract env config.contractAddress
        config.contractName h = false →
      BlockchainService.hashExistsOnContract env contractAddressV2
        contractNameV2 h = false →
      BlockchainService.hashExistsOnContract env contractAddressV1
        contractNameV1 h = true →
      (BlockchainService.verifyTweet env config h).isSome = true) := by
  refine ⟨?_, ?_, ?_, ?_, ?_⟩
  · intro r hr
    simp [BlockchainService.verifyTweet, hr]
  · intro hnet hv3 r hr
    simp [BlockchainService.verifyTweet, hv3, hnet, hr]
  · intro hnet hv3 hv2
    simp [BlockchainService.verifyTweet, hv3, hnet, hv2]
  · intro hnet
    cases hp : BlockchainService.verifyOnContract env config.contractAddress
        config.contractName h with
    | some r => simp [BlockchainService.verifyTweet, hp]
    | none => simp [BlockchainService.verifyTweet, hp, hnet]
  · intro hnet h3 h2 h1
    have hv3 : BlockchainService.verifyOnContract env config.contractAddress
        config.contractName h = none := by
      simp [BlockchainService.verifyOnContract, h3]
    have hv2 : BlockchainService.verifyOnContract env contractAddressV2
        contractNameV2 h = none := by
      simp [BlockchainService.verifyOnContract, h2]
    have hstep : BlockchainService.verifyTweet env config h =
        BlockchainService.verifyOnContract env contractAddressV1
          contractNameV1 h := by
      simp [BlockchainService.verifyTweet, hv3, hv2, hnet]
    rw [hstep]
    simp only [BlockchainService.verifyOnContract, h1, if_pos, ite_true, if_true]
    cases env.verifyContentCall contractAddressV1 contractNameV1 h <;> simp

/-- Witness for C2: on `envV1Only` (hash present only in the v1 contract)
the mainnet fallback chain still verifies. -/
theorem c2_version_fallback_ordering_witness :
    (BlockchainService.verifyTweet envV1Only configMainnet hash32).isSome = true := by
  exact (c2_version_fallback_ordering envV1Only configMainnet hash32).2.2.2.2
    rfl (by decide) (by decide) (by decide)

/-- C5: when the existence check reports true but the detail fetch fails
or cannot be decoded, `verifyOnContract` returns the degraded record
(author `unknown`, block height 0, registration id 0, current-time
timestamp) instead of null. -/
theorem c5_degraded_record_on_detail_failure (env : ChainEnv)
    (a n : String) (h : List Nat)
    (hex : BlockchainService.hashExistsOnContract env a n h = true)
    (hfail : ∀ d, env.verifyContentCall a n h ≠ DetailOutcome.ok d) :
    BlockchainService.verifyOnContract env a n h =
      some ⟨h, "unknown", none, 0, env.nowSeconds, 0⟩ := by
  unfold BlockchainService.verifyOnContract
  rw [hex]
  cases hd : env.verifyContentCall a n h with
  | ok d => exact absurd hd (hfail d)
  | undecodable => simp
  | exn m => simp

/-- Witness for C5 on `envDetailFail` (exists, detail fetch throws). -/
theorem c5_degraded_record_on_detail_failure_witness :
    BlockchainService.verifyOnContract envDetailFail "SPX" "truthchain_v3"
      hash32 = some ⟨hash32, "unknown", none, 0, 1700000000, 0⟩ := by
  exact c5_degraded_record_on_detail_failure envDetailFail "SPX" "truthchain_v3"
    hash32 (by decide) (fun d hd => DetailOutcome.noConfusion hd)

/-- C8: the read functions convert failures to safe defaults — a thrown
RPC error makes `hashExistsOnContract` return false, a decoded value other
than `true` also yields false, and a thrown error makes `getContractStats`
return null; no exception escapes. -/
theorem c8_gateway_error_defaults (env : ChainEnv) (config : ContractConfig)
    (a n : String) (h : List Nat) (e : String) :
    (env.hashExistsCall a n h = RpcOutcome.exn e →
      BlockchainService.hashExistsOnContract env a n h = false) ∧
    (∀ v, v ≠ ClarityValue.boolCV true →
      env.hashExistsCall a n h = RpcOutcome.ok v →
      BlockchainService.hashExistsOnContract env a n h = false) ∧
    (env.statsCall config.contractAddress config.contractName = RpcOutcome.exn e →
      BlockchainService.getContractStats env config = none) := by
  refine ⟨?_, ?_, ?_⟩
  · intro hx
    simp [BlockchainService.hashExistsOnContract, hx]
  · intro v hv hx
    simp [BlockchainService.hashExistsOnContract, hx, hv]
  · intro hx
    simp [BlockchainService.getContractStats, hx]

/-- Witness for C8 on `envAllExn` (every RPC throws). -/
theorem c8_gateway_error_defaults_witness :
    BlockchainService.hashExistsOnContract envAllExn "SPX" "truthchain_v3"
      hash32 = false ∧
    BlockchainService.getContractStats envAllExn configMainnet = none := by
  have hc8 := c8_gateway_error_defaults envAllExn configMainnet "SPX"
    "truthchain_v3" hash32 "boom"
  exact ⟨hc8.1 rfl, hc8.2.2 rfl⟩

/-- C1: when an unexpired negative cache entry for a hash coexists with a
stored registration whose chain status is confirmed or pending, the
`POST /verify` resolver deletes the negative entry, consults the store,
and returns success and verified with the record's metadata; the final
cache entry for the hash is a fresh positive one (hits restarted at 1,
showing the old entry was deleted rather than updated). -/
theorem c1_negative_cache_never_masks_store (env : ChainEnv)
    (config : ContractConfig) (db : DBState) (now : Nat) (hashHex : String)
    (entry : CacheEntry) (r : VerificationResult) (reg : RegistrationDoc)
    (hcache : db.cache hashHex = some entry)
    (hlive : now < entry.expiresAt)
    (hres : entry.result = some r)
    (hneg : r.isRegistered = false)
    (hreg : db.registrations hashHex = some reg)
    (hstatus : reg.blockchain.status = "confirmed" ∨
      reg.blockchain.status = "pending") :
    (VerificationController.verifyTweet env config db now none
        (some hashHex)).2.success = true ∧
    (VerificationController.verifyTweet env config db now none
        (some hashHex)).2.verified = true ∧
    (VerificationController.verifyTweet env config db now none
        (some hashHex)).2.data =
      some ⟨hashHex, reg.authorWallet, reg.bnsName,
        some (reg.bnsStatus.getD "valid"),
        some (reg.blockchain.timestamp.getD reg.createdAt),
        reg.blockchain.blockHeight.getD 0,
        some (reg.blockchain.registrationId.getD 0),
        some (reg.blockchain.txId.getD "")⟩ ∧
    ∃ e', (VerificationController.verifyTweet env config db now none
        (some hashHex)).1.cache hashHex = some e' ∧
      (∃ r', e'.result = some r' ∧ r'.isRegistered = true) ∧ e'.hits = 1 := by
  have hsb : (reg.blockchain.status == "confirmed" ||
      reg.blockchain.status == "pending") = true := by
    rcases hstatus with hs | hs <;> simp [hs]
  have hrun : VerificationController.verifyTweet env config db now none
      (some hashHex) =
      VerificationController.verifyStep2 env config
        (deleteCacheEntry db hashHex) now none (some hashHex) hashHex := by
    simp [VerificationController.verifyTweet, hcache, hlive, hres, hneg]
  rw [hrun]
  have hreg' : (deleteCacheEntry db hashHex).registrations hashHex = some reg := hreg
  have hcache' : (deleteCacheEntry db hashHex).cache hashHex = none := by
    simp [deleteCacheEntry]
  refine ⟨?_, ?_, ?_, ?_⟩
  · simp [VerificationController.verifyStep2, hreg', hsb]
  · simp [VerificationController.verifyStep2, hreg', hsb]
  · simp [VerificationController.verifyStep2, hreg', hsb]
  · refine ⟨⟨some ⟨true, some (reg.blockchain.timestamp.getD now),
      some reg.authorWallet, reg.bnsName, some (reg.bnsStatus.getD "valid"),
      some (reg.blockchain.txId.getD ""),
      some (reg.blockchain.blockHeight.getD 0)⟩, now + 3600000, 1, now⟩,
      ?_, ⟨_, rfl, rfl⟩, rfl⟩
    simp [VerificationController.verifyStep2, hreg', hsb, incVerifications,
      upsertCacheEntry, hcache']

/-- Witness for C1: negative cache entry plus confirmed registration for
hash `"abcd"` in `dbNegCache`. -/
theorem c1_negative_cache_never_masks_store_witness :
    (VerificationController.verifyTweet envQuiet configMainnet dbNegCache
        1000 none (some "abcd")).2.verified = true ∧
    (VerificationController.verifyTweet envQuiet configMainnet dbNegCache
        1000 none (some "abcd")).2.data =
      some ⟨"abcd", "SPWALLETA", some "alice.btc", some "valid",
        some 1600000123, 7, some 42, some "0xdeadbeef"⟩ := by
  have hc1 := c1_negative_cache_never_masks_store envQuiet configMainnet
    dbNegCache 1000 "abcd" cacheEntryNeg
    ⟨false, none, none, none, none, none, none⟩ regConfirmed
    rfl (by decide) rfl rfl rfl (Or.inl rfl)
  exact ⟨hc1.2.1, hc1.2.2.1⟩

/-- C7: `POST /verify/batch` returns 400 with no results for a missing or
empty items array or for more than 10 items; otherwise it returns one
result per item, in input order, each computed independently by the
chain-fallback step on that item alone; a malformed item yields the
`Either content or hash required` error entry. -/
theorem c7_batch_verify_per_item (env : ChainEnv) (config : ContractConfig) :
    ((VerificationController.batchVerify env config none).status = 400 ∧
      (VerificationController.batchVerify env config none).results = []) ∧
    ((VerificationController.batchVerify env config (some [])).status = 400 ∧
      (VerificationController.batchVerify env config (some [])).results = []) ∧
    (∀ l : List VerificationController.BatchItem, l.length > 10 →
      (VerificationController.batchVerify env config (some l)).status = 400 ∧
      (VerificationController.batchVerify env config (some l)).results = []) ∧
    (∀ l : List VerificationController.BatchItem, l ≠ [] → l.length ≤ 10 →
      (VerificationController.batchVerify env config (some l)).status = 200 ∧
      (VerificationController.batchVerify env config (some l)).results =
        l.map (VerificationController.processBatchItem env config) ∧
      (VerificationController.batchVerify env config (some l)).results.length =
        l.length) ∧
    VerificationController.processBatchItem env config ⟨none, none⟩ =
      ⟨false, false, none, none, some "Either content or hash required"⟩ := by
  refine ⟨⟨rfl, rfl⟩, ⟨rfl, rfl⟩, ?_, ?_, rfl⟩
  · intro l hl
    have hne : l.isEmpty = false := by
      cases l with
      | nil => simp at hl
      | cons a t => rfl
    constructor <;> simp [VerificationController.batchVerify, hne, hl]
  · intro l hne hlen
    have hne' : l.isEmpty = false := by
      cases l with
      | nil => exact absurd rfl hne
      | cons a t => rfl
    have hlen' : ¬ l.length > 10 := by omega
    refine ⟨?_, ?_, ?_⟩ <;>
      simp [VerificationController.batchVerify, hne', hlen']

/-- Witness for C7: eleven items are rejected outright; a two-item batch
(one hash item, one malformed item) yields exactly the two per-item
results. -/
theorem c7_batch_verify_per_item_witness :
    (VerificationController.batchVerify envQuiet configMainnet
        (some itemsEleven)).status = 400 ∧
    (VerificationController.batchVerify envQuiet configMainnet
        (some itemsTwo)).results =
      [VerificationController.processBatchItem envQuiet configMainnet
        ⟨none, some "00"⟩,
       ⟨false, false, none, none, some "Either content or hash required"⟩] := by
  have hb := c7_batch_verify_per_item envQuiet configMainnet
  refine ⟨(hb.2.2.1 itemsEleven (by decide)).1, ?_⟩
  have h2 := (hb.2.2.2.1 itemsTwo (by decide) (by decide)).2.1
  rw [h2]
  simp only [itemsTwo, List.map]
  rw [hb.2.2.2.2]

/-- C10: `GET /verify/:hash` probes only the primary contract, so on
`envV1Only` — where the hash is registered only in the v1 contract on
mainnet — quickVerify reports not found while `POST /verify` for the same
hash verifies via the multi-version fallback: the two endpoints are not
equivalent existence probes. -/
theorem c10_quick_verify_not_equivalent :
    VerificationController.quickVerify envV1Only configMainnet
        (some hashHex64) =
      ⟨200, true, false, "Content not found", some hashHex64, some false⟩ ∧
    BlockchainService.hashExistsOnContract envV1Only contractAddressV1
      contractNameV1 (hexToBuffer hashHex64) = true ∧
    (VerificationController.verifyTweet envV1Only configMainnet dbEmpty 1000
        none (some hashHex64)).2.verified = true ∧
    (VerificationController.verifyTweet envV1Only configMainnet dbEmpty 1000
        none (some hashHex64)).2.success = true := by
  refine ⟨by decide, by decide, ?_, ?_⟩ <;> decide

/-- A failed registry fetch (non-2xx or thrown) is converted to an empty
name list by `fetchWalletBNSNames`. -/
theorem fetchFailure_names_nil (env : BNSEnv) (w : String)
    (h : (env.fetchNames w).isFailure = true) :
    BNSValidationService.fetchWalletBNSNames env w = [] := by
  cases hx : env.fetchNames w with
  | ok names =>
    rw [hx] at h
    simp [FetchOutcome.isFailure] at h
  | httpError s => simp [BNSValidationService.fetchWalletBNSNames, hx]
  | networkError m => simp [BNSValidationService.fetchWalletBNSNames, hx]

/-- C9: the sweep's per-record update classifies a registration by the
wallet's current name list — original name present sets `valid`; a
non-empty list without the original name sets `transferred` with the first
owned name recorded as current owner and a transfer timestamp; an empty
list sets the unowned state — and `lastBnsValidation` is stamped on every
processed record; the sweep applies exactly this update to each selected
record. -/
theorem c9_sweep_status_transitions (env : BNSEnv) (r : RegistrationDoc)
    (L : List String) (nm : String)
    (hnm : r.bnsName = some nm)
    (hL : BNSValidationService.fetchWalletBNSNames env r.authorWallet = L) :
    (nm ∈ L →
      BNSValidationService.updateValidatedReg env r =
        { r with
          lastBnsValidation := some env.now
          bnsStatus := some "valid" }) ∧
    (L ≠ [] → nm ∉ L →
      BNSValidationService.updateValidatedReg env r =
        { r with
          lastBnsValidation := some env.now
          bnsStatus := some "transferred"
          bnsTransferredAt := some env.now
          currentBnsOwner := L.head? }) ∧
    (L = [] →
      BNSValidationService.updateValidatedReg env r =
        { r with
          lastBnsValidation := some env.now
          bnsStatus := some "no-longer-owned" }) ∧
    (BNSValidationService.updateValidatedReg env r).lastBnsValidation =
      some env.now ∧
    (∀ (coll : List RegistrationDoc) (maxAge : Nat),
      BNSValidationService.validateStaleRegistrations env coll maxAge =
        ((BNSValidationService.selectStale env.now maxAge coll).map
           (BNSValidationService.updateValidatedReg env),
         (BNSValidationService.selectStale env.now maxAge coll).length)) := by
  have hget : r.bnsName.getD "" = nm := by rw [hnm]; rfl
  refine ⟨?_, ?_, ?_, ?_, fun coll maxAge => rfl⟩
  · intro hmem
    simp [BNSValidationService.updateValidatedReg,
      BNSValidationService.validateRegistration, hget, hL, hmem]
  · intro hne hnot
    have hlen : 0 < L.length := List.length_pos.mpr hne
    simp [BNSValidationService.updateValidatedReg,
      BNSValidationService.validateRegistration, hget, hL, hnot, hlen]
  · intro hnil
    subst hnil
    simp [BNSValidationService.updateValidatedReg,
      BNSValidationService.validateRegistration, hget, hL]
  · simp [BNSValidationService.updateValidatedReg]

/-- Witness for C9: a stale `alice.btc` binding whose wallet now owns only
`bob.btc` is classified as transferred with `bob.btc` as current owner. -/
theorem c9_sweep_status_transitions_witness :
    BNSValidationService.updateValidatedReg envBobOnly regStaleValid =
      { regStaleValid with
        lastBnsValidation := some 200000000000
        bnsStatus := some "transferred"
        bnsTransferredAt := some 200000000000
        currentBnsOwner := some "bob.btc" } := by
  have h9 := c9_sweep_status_transitions envBobOnly regStaleValid ["bob.btc"]
    "alice.btc" rfl rfl
  exact h9.2.1 (by decide) (by decide)

/-- C3 counterexample: during a total registry outage (`envOutage`, every
fetch throws), sweeping one stale currently-`valid` registration counts it
as validated (count 1, not 0) and overwrites its binding status to the
unowned state — the fetch failure is converted to an empty name list
rather than skipping the record. -/
theorem c3_counterexample_outage_changes_status :
    (envOutage.fetchNames regStaleValid.authorWallet).isFailure = true ∧
    regStaleValid.bnsStatus = some "valid" ∧
    (BNSValidationService.validateStaleRegistrations envOutage [regStaleValid]
        BNSValidationService.defaultMaxAge).2 = 1 ∧
    (BNSValidationService.validateStaleRegistrations envOutage [regStaleValid]
        BNSValidationService.defaultMaxAge).1.map RegistrationDoc.bnsStatus =
      [some "no-longer-owned"] := by
  refine ⟨rfl, rfl, ?_, ?_⟩ <;> decide

/-- C3 amended: per-record registry fetch failures are caught and logged
inside the fetch helper and never abort the batch, but they are converted
to an empty name list, so each affected record is reclassified to the
unowned state, stamped, and counted as validated; a total outage therefore
marks every selected record unowned rather than leaving statuses
unchanged with zero validated. -/
theorem c3_amended_outage_marks_unowned (env : BNSEnv)
    (coll : List RegistrationDoc) (maxAge : Nat)
    (hfail : ∀ w, (env.fetchNames w).isFailure = true) :
    (BNSValidationService.validateStaleRegistrations env coll maxAge).2 =
      (BNSValidationService.selectStale env.now maxAge coll).length ∧
    ∀ r' ∈ (BNSValidationService.validateStaleRegistrations env coll maxAge).1,
      r'.bnsStatus = some "no-longer-owned" ∧
      r'.lastBnsValidation = some env.now := by
  constructor
  · rfl
  · intro r' hr'
    simp only [BNSValidationService.validateStaleRegistrations,
      List.mem_map] at hr'
    obtain ⟨r, hrmem, rfl⟩ := hr'
    have hnil := fetchFailure_names_nil env r.authorWallet (hfail _)
    constructor
    · simp [BNSValidationService.updateValidatedReg,
        BNSValidationService.validateRegistration, hnil]
    · simp [BNSValidationService.updateValidatedReg]

/-- Witness for C3 (amended) at the concrete outage environment. -/
theorem c3_amended_outage_marks_unowned_witness :
    (BNSValidationService.validateStaleRegistrations envOutage [regStaleValid]
        BNSValidationService.defaultMaxAge).2 =
      (BNSValidationService.selectStale envOutage.now
        BNSValidationService.defaultMaxAge [regStaleValid]).length ∧
    ∀ r' ∈ (BNSValidationService.validateStaleRegistrations envOutage
        [regStaleValid] BNSValidationService.defaultMaxAge).1,
      r'.bnsStatus = some "no-longer-owned" ∧
      r'.lastBnsValidation = some envOutage.now :=
  c3_amended_outage_marks_unowned envOutage [regStaleValid]
    BNSValidationService.defaultMaxAge (fun _ => rfl)

/-- C4 counterexample: a registration whose binding status is
`transferred` is set back to `valid` by a Validator sweep as soon as the
wallet again owns the original name (`envRegained`) — the status does
revert to `valid` automatically, without re-registration or manual
correction. -/
theorem c4_counterexample_auto_revert_to_valid :
    regTransferred.bnsStatus = some "transferred" ∧
    (BNSValidationService.validateStaleRegistrations envRegained
        [regTransferred] BNSValidationService.defaultMaxAge).1.map
      RegistrationDoc.bnsStatus = [some "valid"] := by
  refine ⟨rfl, ?_⟩
  decide

/-- C4 amended: the binding status starts `valid` at creation (schema
default) and is recomputed by each Validator sweep from current ownership;
whenever the wallet owns the original name the sweep sets the status to
`valid`, including automatically reverting a `transferred` or unowned
record. -/
theorem c4_amended_sweep_recomputes_status (env : BNSEnv)
    (r : RegistrationDoc) (nm : String)
    (hnm : r.bnsName = some nm)
    (hmem : nm ∈ BNSValidationService.fetchWalletBNSNames env r.authorWallet) :
    (BNSValidationService.updateValidatedReg env r).bnsStatus = some "valid" ∧
    bnsStatusDefault = "valid" := by
  constructor
  · have hget : r.bnsName.getD "" = nm := by rw [hnm]; rfl
    simp [BNSValidationService.updateValidatedReg,
      BNSValidationService.validateRegistration, hget, hmem]
  · rfl

/-- Witness for C4 (amended): the `transferred` fixture record reverts to
`valid` once its wallet owns `alice.btc` again. -/
theorem c4_amended_sweep_recomputes_status_witness :
    (BNSValidationService.updateValidatedReg envRegained
        regTransferred).bnsStatus = some "valid" ∧
    bnsStatusDefault = "valid" :=
  c4_amended_sweep_recomputes_status envRegained regTransferred "alice.btc"
    rfl (by decide)

end TruthChain
